import Mathlib

/-!
Verification of the invite / scrape / authentication core of the
telematrix repository (src/core/inviter.py, src/core/parser.py,
src/core/async_manager.py).

The Python code is embedded shallowly: every protocol call site is given
its outcome through an explicit environment value (the call either
returns normally or raises one of the named telethon error conditions),
and the control flow of the Python functions is translated statement by
statement into pure Lean functions.  Wall-clock values (datetime.now
timestamps) are elided from persisted rows, since no property below
depends on them; sleeps are recorded as the list of requested durations.
-/

namespace Telematrix

/-- Named telethon error conditions as imported by src/core/inviter.py.
Each carries the message text used by the handler that consumes it. -/
inductive TgError where
  | privacyRestricted : TgError
  | alreadyParticipant : TgError
  | adminRequired : String → TgError
  | floodWait : Nat → TgError
  | chatNotModified : String → TgError
  | peerIdInvalid : String → TgError
  | otherError : String → String → TgError
deriving DecidableEq

/-- Models Python str(e) for a raised condition. -/
def errStr : TgError → String
  | .privacyRestricted => "UserPrivacyRestrictedError"
  | .alreadyParticipant => "UserAlreadyParticipantError"
  | .adminRequired m => m
  | .floodWait w => "FloodWaitError " ++ toString w
  | .chatNotModified m => m
  | .peerIdInvalid m => m
  | .otherError _ m => m

/-- Outcome of one protocol call: returns normally or raises a condition. -/
inductive CallOutcome where
  | ok : CallOutcome
  | raised : TgError → CallOutcome
deriving DecidableEq

/-- The result dictionary built by Inviter._invite_user
(keys success, skipped, reason, error). -/
structure InviteResult where
  success : Bool
  skipped : Bool
  reason : String
  error : String
deriving DecidableEq

/-- One run of Inviter._invite_user: the classification it returns, the
sleeps it performed, and how many add-user protocol calls it issued. -/
structure InviteCallTrace where
  result : InviteResult
  sleeps : List Nat
  attempts : Nat
deriving DecidableEq

/-- Shallow embedding of Inviter._invite_user (inviter.py lines 259-401).
entityErr is the outcome of the get_entity / get_input_entity prologue
(some msg when it raises); first is the outcome of the first
InviteToChannelRequest / AddChatUserRequest call; retry is the outcome of
the second call, consulted only when the first raises FloodWaitError.
The except arms are translated in source order. -/
def inviteUser (entityErr : Option String) (first retry : CallOutcome) : InviteCallTrace :=
  match entityErr with
  | some m =>
    ⟨⟨false, false, "", "Ошибка получения информации о пользователе: " ++ m⟩, [], 0⟩
  | none =>
    match first with
    | .ok => ⟨⟨true, false, "", ""⟩, [], 1⟩
    | .raised .privacyRestricted =>
      ⟨⟨false, true, "UserPrivacyRestrictedError - пользователь ограничил приватность", ""⟩, [], 1⟩
    | .raised .alreadyParticipant =>
      ⟨⟨false, true, "UserAlreadyParticipantError - пользователь уже в чате", ""⟩, [], 1⟩
    | .raised (.adminRequired m) =>
      ⟨⟨false, false, "", "ChatAdminRequiredError - требуются права администратора: " ++ m⟩, [], 1⟩
    | .raised (.floodWait w) =>
      match retry with
      | .ok => ⟨⟨true, false, "", ""⟩, [w], 2⟩
      | .raised e =>
        ⟨⟨false, false, "", "Ошибка после FloodWait: " ++ errStr e⟩, [w], 2⟩
    | .raised (.chatNotModified m) =>
      ⟨⟨false, true, "ChatNotModifiedError - " ++ m, ""⟩, [], 1⟩
    | .raised (.peerIdInvalid m) =>
      ⟨⟨false, false, "", "PeerIdInvalidError - неверный ID: " ++ m⟩, [], 1⟩
    | .raised (.otherError n m) =>
      ⟨⟨false, false, "", n ++ " - " ++ m⟩, [], 1⟩

/-- The statistics dictionary of Inviter (success / error / skipped). -/
structure InviteStats where
  success : Nat
  error : Nat
  skipped : Nat
deriving DecidableEq

def statSum (s : InviteStats) : Nat := s.success + s.error + s.skipped

/-- One row of the invites table (INSERT INTO invites in inviter.py);
the invited_at timestamp is elided.  user_id is an Option because the
per-item exception handler may fail to resolve an identifier and then
binds NULL. -/
structure InviteRecordRow where
  account_id : Nat
  user_id : Option Nat
  chat_id : Nat
  status : String
deriving DecidableEq

/-- Environment for one target of the invite loop (inviter.py 114-182):
either _get_user_id returns None (unresolved), or the target resolves to
uid and _invite_user runs with the given protocol outcomes, or an
unexpected fault is raised inside the iteration and caught at the item
boundary (the handler re-resolves the identifier to uid, possibly None). -/
inductive TargetBehavior where
  | unresolved : TargetBehavior
  | resolved : Nat → Option String → CallOutcome → CallOutcome → TargetBehavior
  | raisesItem : Option Nat → String → TargetBehavior
deriving DecidableEq

/-- The status string persisted for a classified invite outcome
(inviter.py lines 134-145). -/
def statusOf (r : InviteResult) : String :=
  if r.success then "success"
  else if r.skipped then "skipped: " ++ r.reason
  else "error: " ++ r.error

/-- One iteration of the target loop of Inviter.invite_users: updates the
statistics and the list of persisted invite rows. -/
def processTarget (accountId chatId : Nat) (s : InviteStats × List InviteRecordRow)
    (t : TargetBehavior) : InviteStats × List InviteRecordRow :=
  match t with
  | .unresolved =>
    (⟨s.1.success, s.1.error, s.1.skipped + 1⟩, s.2)
  | .resolved uid entityErr first retry =>
    let r := (inviteUser entityErr first retry).result
    let stats :=
      if r.success then ⟨s.1.success + 1, s.1.error, s.1.skipped⟩
      else if r.skipped then ⟨s.1.success, s.1.error, s.1.skipped + 1⟩
      else ⟨s.1.success, s.1.error + 1, s.1.skipped⟩
    (stats, s.2 ++ [⟨accountId, some uid, chatId, statusOf r⟩])
  | .raisesItem uid m =>
    (⟨s.1.success, s.1.error + 1, s.1.skipped⟩, s.2 ++ [⟨accountId, uid, chatId, "error: " ++ m⟩])

/-- The target loop of Inviter.invite_users (lines 113-185), after the
setup phase has produced accountId and chatId: statistics are reset and
each target is processed in input order. -/
def invite_users (accountId chatId : Nat) (ts : List TargetBehavior) :
    InviteStats × List InviteRecordRow :=
  ts.foldl (processTarget accountId chatId) (⟨0, 0, 0⟩, [])

/-- The row persisted for one target, if any: an unresolved target
persists nothing (inviter.py 118-121 increments skipped and continues). -/
def rowFor (accountId chatId : Nat) : TargetBehavior → Option InviteRecordRow
  | .unresolved => none
  | .resolved uid entityErr first retry =>
    some ⟨accountId, some uid, chatId, statusOf (inviteUser entityErr first retry).result⟩
  | .raisesItem uid m => some ⟨accountId, uid, chatId, "error: " ++ m⟩

theorem processTarget_snd (a c : Nat) (s : InviteStats × List InviteRecordRow)
    (t : TargetBehavior) :
    (processTarget a c s t).2 = s.2 ++ (rowFor a c t).toList := by
  cases t <;> simp [processTarget, rowFor]

theorem processTarget_sum (a c : Nat) (s : InviteStats × List InviteRecordRow)
    (t : TargetBehavior) :
    statSum (processTarget a c s t).1 = statSum s.1 + 1 := by
  cases t with
  | unresolved => simp [processTarget, statSum]; omega
  | resolved uid e f r =>
    simp only [processTarget, statSum]
    split
    · simp; omega
    · split
      · simp; omega
      · simp; omega
  | raisesItem u m => simp [processTarget, statSum]; omega

theorem invite_fold_spec (a c : Nat) (ts : List TargetBehavior) :
    ∀ s : InviteStats × List InviteRecordRow,
      (ts.foldl (processTarget a c) s).2 = s.2 ++ ts.filterMap (rowFor a c) ∧
      statSum (ts.foldl (processTarget a c) s).1 = statSum s.1 + ts.length := by
  induction ts with
  | nil => intro s; simp
  | cons t rest ih =>
    intro s
    have h2 := processTarget_snd a c s t
    have h1 := processTarget_sum a c s t
    have hr := ih (processTarget a c s t)
    constructor
    · rw [List.foldl_cons, hr.1, h2]
      cases ht : rowFor a c t <;> simp [ht, List.filterMap_cons]
    · rw [List.foldl_cons, hr.2, h1, List.length_cons]
      omega

/-- Outcome of one get_participants protocol call in
Parser.parse_chat_participants (parser.py 110-199): the call succeeds
(the true membership page is returned), or raises FloodWaitError,
ChatAdminRequiredError, or an unexpected fault. -/
inductive FetchOutcome where
  | ok : FetchOutcome
  | flood : Nat → FetchOutcome
  | adminRequired : FetchOutcome
  | failed : FetchOutcome
deriving DecidableEq

/-- Observable trace of one run of Parser.parse_chat_participants:
the accepted users in order, the number of get_participants protocol
calls issued, the successful pages as (requested, returned) sizes,
the sleeps performed, and the final pagination offset. -/
structure ParseOut (α : Type) where
  users : List α
  calls : Nat
  pages : List (Nat × Nat)
  sleeps : List Nat
  finalOffset : Nat
deriving DecidableEq

/-- The inner per-participant loop of parser.py lines 123-182: a member
is appended (and parsed_count incremented) exactly when the whole body —
get_user_info, the four filters, the activity check — accepts it; every
rejection and every per-member fault just continues.  The accept
predicate abstracts that body. -/
def processBatch {α : Type} (accept : α → Bool) (limit : Nat) :
    List α → Nat → List α → Nat × List α
  | [], parsed, acc => (parsed, acc)
  | p :: rest, parsed, acc =>
    if limit ≤ parsed then (parsed, acc)
    else if accept p then processBatch accept limit rest (parsed + 1) (acc ++ [p])
    else processBatch accept limit rest parsed acc

/-- The while loop of parser.py lines 110-199, fuelled.  The faults list
is consumed one entry per protocol call; an exhausted list means the
call succeeds.  A flood entry sleeps and retries the same fetch
(except FloodWaitError: sleep, continue); adminRequired and failed break
out of the loop; a successful call returns the membership page
(M.drop offset).take r for the requested size r = min 100 (limit -
parsed), after which the offset advances by the returned length and a
short page (fewer than 100 items) ends the loop. -/
def parseLoop {α : Type} (accept : α → Bool) (M : List α) (limit : Nat) :
    Nat → Nat → Nat → List α → List FetchOutcome → Nat → List (Nat × Nat) → List Nat →
    ParseOut α
  | 0, offset, _, acc, _, calls, pages, sleeps => ⟨acc, calls, pages, sleeps, offset⟩
  | fuel + 1, offset, parsed, acc, faults, calls, pages, sleeps =>
    if limit ≤ parsed then ⟨acc, calls, pages, sleeps, offset⟩
    else
      match faults.headD FetchOutcome.ok, faults.tail with
      | FetchOutcome.flood w, rest =>
        parseLoop accept M limit fuel offset parsed acc rest (calls + 1) pages (sleeps ++ [w])
      | FetchOutcome.adminRequired, _ => ⟨acc, calls + 1, pages, sleeps, offset⟩
      | FetchOutcome.failed, _ => ⟨acc, calls + 1, pages, sleeps, offset⟩
      | FetchOutcome.ok, rest =>
        let r := min 100 (limit - parsed)
        let participants := (M.drop offset).take r
        if participants.isEmpty then
          ⟨acc, calls + 1, pages ++ [(r, 0)], sleeps, offset⟩
        else
          let pr := processBatch accept limit participants parsed acc
          let offset2 := offset + participants.length
          let pages2 := pages ++ [(r, participants.length)]
          if participants.length < 100 then ⟨pr.2, calls + 1, pages2, sleeps, offset2⟩
          else parseLoop accept M limit fuel offset2 pr.1 pr.2 rest (calls + 1) pages2 sleeps

/-- Shallow embedding of Parser.parse_chat_participants after its setup
phase (client created, authorized, chat resolved): members M with their
acceptance predicate, the requested limit, and the protocol fault trace. -/
def parse_chat_participants {α : Type} (accept : α → Bool) (M : List α) (limit : Nat)
    (faults : List FetchOutcome) : ParseOut α :=
  parseLoop accept M limit (faults.length + M.length + limit + 2) 0 0 [] faults 0 [] []

theorem processBatch_le {α : Type} (accept : α → Bool) (limit : Nat) :
    ∀ (batch : List α) (parsed : Nat) (acc : List α), parsed ≤ limit →
      (processBatch accept limit batch parsed acc).1 ≤ limit := by
  intro batch
  induction batch with
  | nil => intro parsed acc h; simpa [processBatch] using h
  | cons p rest ih =>
    intro parsed acc h
    simp only [processBatch]
    split
    · simpa using h
    · split
      · exact ih (parsed + 1) (acc ++ [p]) (by omega)
      · exact ih parsed acc h

theorem processBatch_len {α : Type} (accept : α → Bool) (limit : Nat) :
    ∀ (batch : List α) (parsed : Nat) (acc : List α),
      (processBatch accept limit batch parsed acc).2.length + parsed =
        (processBatch accept limit batch parsed acc).1 + acc.length := by
  intro batch
  induction batch with
  | nil => intro parsed acc; simp [processBatch]; omega
  | cons p rest ih =>
    intro parsed acc
    simp only [processBatch]
    split
    · simp; omega
    · split
      · have := ih (parsed + 1) (acc ++ [p])
        simp at this
        omega
      · exact ih parsed acc

theorem parseLoop_users_le {α : Type} (accept : α → Bool) (M : List α) (limit : Nat) :
    ∀ (fuel offset parsed : Nat) (acc : List α) (faults : List FetchOutcome)
      (calls : Nat) (pages : List (Nat × Nat)) (sleeps : List Nat),
      acc.length ≤ parsed → parsed ≤ limit →
      (parseLoop accept M limit fuel offset parsed acc faults calls pages sleeps).users.length
        ≤ limit := by
  intro fuel
  induction fuel with
  | zero =>
    intro offset parsed acc faults calls pages sleeps h1 h2
    simpa [parseLoop] using le_trans h1 h2
  | succ n ih =>
    intro offset parsed acc faults calls pages sleeps h1 h2
    simp only [parseLoop]
    split
    · simpa using le_trans h1 h2
    · rcases faults with _ | ⟨f, rest⟩
      · simp only [List.headD_nil, List.tail_nil]
        split
        · simpa using le_trans h1 h2
        · have hle := processBatch_le accept limit ((M.drop offset).take (min 100 (limit - parsed))) parsed acc h2
          have hlen := processBatch_len accept limit ((M.drop offset).take (min 100 (limit - parsed))) parsed acc
          split
          · simp only []
            omega
          · exact ih _ _ _ _ _ _ _ (by omega) hle
      · cases f with
        | ok =>
          simp only [List.headD_cons, List.tail_cons]
          split
          · simpa using le_trans h1 h2
          · have hle := processBatch_le accept limit ((M.drop offset).take (min 100 (limit - parsed))) parsed acc h2
            have hlen := processBatch_len accept limit ((M.drop offset).take (min 100 (limit - parsed))) parsed acc
            split
            · simp only []
              omega
            · exact ih _ _ _ _ _ _ _ (by omega) hle
        | flood w =>
          simp only [List.headD_cons, List.tail_cons]
          exact ih _ _ _ _ _ _ _ h1 h2
        | adminRequired => simpa [List.headD_cons] using le_trans h1 h2
        | failed => simpa [List.headD_cons] using le_trans h1 h2

theorem parseLoop_pages_full {α : Type} (accept : α → Bool) (M : List α) (limit : Nat) :
    ∀ (fuel offset parsed : Nat) (acc : List α) (faults : List FetchOutcome)
      (calls : Nat) (pages : List (Nat × Nat)) (sleeps : List Nat),
      (∀ p ∈ pages, p.2 = 100) →
      ∀ q ∈ (parseLoop accept M limit fuel offset parsed acc faults calls
        pages sleeps).pages.dropLast, q.2 = 100 := by
  intro fuel
  induction fuel with
  | zero =>
    intro offset parsed acc faults calls pages sleeps hp q hq
    exact hp q ((List.dropLast_sublist _).subset (by simpa [parseLoop] using hq))
  | succ n ih =>
    intro offset parsed acc faults calls pages sleeps hp
    simp only [parseLoop]
    split
    · intro q hq
      exact hp q ((List.dropLast_sublist _).subset (by simpa using hq))
    · have hbody : ∀ q ∈ (pages ++
          [(min 100 (limit - parsed), ((M.drop offset).take (min 100 (limit - parsed))).length)]),
          ¬ ((M.drop offset).take (min 100 (limit - parsed))).length < 100 → q.2 = 100 := by
        intro q hq hard
        rcases List.mem_append.1 hq with h | h
        · exact hp q h
        · have hr : ((M.drop offset).take (min 100 (limit - parsed))).length ≤ 100 :=
            le_trans (List.length_take_le _ _) (Nat.min_le_left _ _)
          rw [List.mem_singleton.1 h]
          show ((M.drop offset).take (min 100 (limit - parsed))).length = 100
          omega
      rcases faults with _ | ⟨f, rest⟩
      · simp only [List.headD_nil, List.tail_nil]
        split
        · intro q hq
          simp only [List.dropLast_concat] at hq
          exact hp q hq
        · split
          · intro q hq
            simp only [List.dropLast_concat] at hq
            exact hp q hq
          · next hlong =>
            exact ih _ _ _ _ _ _ _ (fun q hq => hbody q hq hlong)
      · cases f with
        | ok =>
          simp only [List.headD_cons, List.tail_cons]
          split
          · intro q hq
            simp only [List.dropLast_concat] at hq
            exact hp q hq
          · split
            · intro q hq
              simp only [List.dropLast_concat] at hq
              exact hp q hq
            · next hlong =>
              exact ih _ _ _ _ _ _ _ (fun q hq => hbody q hq hlong)
        | flood w =>
          simp only [List.headD_cons, List.tail_cons]
          exact ih _ _ _ _ _ _ _ hp
        | adminRequired =>
          intro q hq
          exact hp q ((List.dropLast_sublist _).subset (by simpa using hq))
        | failed =>
          intro q hq
          exact hp q ((List.dropLast_sublist _).subset (by simpa using hq))

theorem parseLoop_flood_prefix {α : Type} (accept : α → Bool) (M : List α) (limit : Nat) :
    ∀ (ws : List Nat) (fuel offset parsed : Nat) (acc : List α)
      (rest : List FetchOutcome) (calls : Nat) (pages : List (Nat × Nat)) (sleeps : List Nat),
      parsed < limit →
      parseLoop accept M limit (ws.length + fuel) offset parsed acc
          (ws.map FetchOutcome.flood ++ rest) calls pages sleeps =
        parseLoop accept M limit fuel offset parsed acc rest (calls + ws.length) pages
          (sleeps ++ ws) := by
  intro ws
  induction ws with
  | nil => intro fuel offset parsed acc rest calls pages sleeps _; simp
  | cons w ws2 ih =>
    intro fuel offset parsed acc rest calls pages sleeps h
    have hfuel : (w :: ws2).length + fuel = (ws2.length + fuel) + 1 := by
      simp; omega
    rw [hfuel]
    simp only [List.map_cons, List.cons_append, parseLoop, List.headD_cons, List.tail_cons,
      if_neg (by omega : ¬ limit ≤ parsed)]
    rw [ih fuel offset parsed acc rest (calls + 1) pages (sleeps ++ [w]) h]
    have hc : calls + 1 + ws2.length = calls + (w :: ws2).length := by simp; omega
    have hs : (sleeps ++ [w]) ++ ws2 = sleeps ++ (w :: ws2) := by simp
    rw [hc, hs]

theorem parseLoop_sleeps_nil {α : Type} (accept : α → Bool) (M : List α) (limit : Nat) :
    ∀ (fuel offset parsed : Nat) (acc : List α) (calls : Nat)
      (pages : List (Nat × Nat)) (sleeps : List Nat),
      (parseLoop accept M limit fuel offset parsed acc [] calls pages sleeps).sleeps = sleeps := by
  intro fuel
  induction fuel with
  | zero => intro offset parsed acc calls pages sleeps; simp [parseLoop]
  | succ n ih =>
    intro offset parsed acc calls pages sleeps
    simp only [parseLoop, List.headD_nil, List.tail_nil]
    split
    · rfl
    · split
      · rfl
      · split
        · rfl
        · exact ih _ _ _ _ _ _

theorem parseLoop_calls_mono {α : Type} (accept : α → Bool) (M : List α) (limit : Nat) :
    ∀ (fuel offset parsed : Nat) (acc : List α) (faults : List FetchOutcome) (calls : Nat)
      (pages : List (Nat × Nat)) (sleeps : List Nat),
      calls ≤ (parseLoop accept M limit fuel offset parsed acc faults calls pages sleeps).calls := by
  intro fuel
  induction fuel with
  | zero => intro offset parsed acc faults calls pages sleeps; simp [parseLoop]
  | succ n ih =>
    intro offset parsed acc faults calls pages sleeps
    simp only [parseLoop]
    split
    · exact le_refl _
    · rcases faults with _ | ⟨f, rest⟩
      · simp only [List.headD_nil, List.tail_nil]
        split
        · simp
        · split
          · simp
          · exact le_trans (by omega) (ih _ _ _ _ _ _ _)
      · cases f with
        | ok =>
          simp only [List.headD_cons, List.tail_cons]
          split
          · simp
          · split
            · simp
            · exact le_trans (by omega) (ih _ _ _ _ _ _ _)
        | flood w =>
          simp only [List.headD_cons, List.tail_cons]
          exact le_trans (by omega) (ih _ _ _ _ _ _ _)
        | adminRequired => simp
        | failed => simp

theorem parseLoop_calls_succ {α : Type} (accept : α → Bool) (M : List α) (limit : Nat)
    (fuel offset parsed : Nat) (acc : List α) (faults : List FetchOutcome) (calls : Nat)
    (pages : List (Nat × Nat)) (sleeps : List Nat) (h : parsed < limit) :
    calls + 1 ≤
      (parseLoop accept M limit (fuel + 1) offset parsed acc faults calls pages sleeps).calls := by
  simp only [parseLoop, if_neg (by omega : ¬ limit ≤ parsed)]
  rcases faults with _ | ⟨f, rest⟩
  · simp only [List.headD_nil, List.tail_nil]
    split
    · simp
    · split
      · simp
      · exact parseLoop_calls_mono accept M limit _ _ _ _ _ _ _ _
  · cases f with
    | ok =>
      simp only [List.headD_cons, List.tail_cons]
      split
      · simp
      · split
        · simp
        · exact parseLoop_calls_mono accept M limit _ _ _ _ _ _ _ _
    | flood w =>
      simp only [List.headD_cons, List.tail_cons]
      exact parseLoop_calls_mono accept M limit _ _ _ _ _ _ _ _
    | adminRequired => simp
    | failed => simp

/-- Outcome of client.connect() in AsyncManager.start_client. -/
inductive ConnectOutcome where
  | ok : ConnectOutcome
  | raised : String → ConnectOutcome
deriving DecidableEq

/-- Outcome of one client.send_code_request call. -/
inductive SendCodeOutcome where
  | ok : SendCodeOutcome
  | invalidPhone : SendCodeOutcome
  | flood : Nat → SendCodeOutcome
  | raised : String → SendCodeOutcome
deriving DecidableEq

/-- Outcome of client.sign_in(phone, code). -/
inductive SignInOutcome where
  | ok : SignInOutcome
  | passwordNeeded : SignInOutcome
  | codeInvalid : SignInOutcome
  | codeExpired : SignInOutcome
  | flood : Nat → SignInOutcome
  | raised : String → SignInOutcome
deriving DecidableEq

/-- Environment of one AsyncManager.start_client call
(async_manager.py lines 91-199): outcomes of the protocol calls it may
issue, the code supplied by the code callback or input (empty string is
the falsy no-code answer), the 2FA password supplied by the password
callback (none when no callback is injected, some value otherwise), and
the outcome of sign_in(password) (none means success, some m means the
call raised with message m). -/
structure AuthEnv where
  connect : ConnectOutcome
  authorized : Bool
  send1 : SendCodeOutcome
  send2 : SendCodeOutcome
  code : String
  signIn : SignInOutcome
  password : Option String
  passwordSignIn : Option String
deriving DecidableEq

/-- Observable result of one AsyncManager.start_client run: the boolean
it returns, how many send_code_request and sign_in protocol calls it
issued, the sleeps it performed, how many times it disconnected the
transport, whether it saved a session string, and the fault it let
propagate to the caller (always none: the outer except arm at
async_manager.py line 197 catches every exception and returns False). -/
structure AuthResult where
  success : Bool
  codeRequests : Nat
  signInAttempts : Nat
  sleeps : List Nat
  disconnects : Nat
  sessionSaved : Bool
  raisedOut : Option String
deriving DecidableEq

/-- Continuation of start_client after the code request phase succeeded
(async_manager.py lines 132-186), with creq code requests issued and
sleeps sl so far. -/
def afterCodeRequest (env : AuthEnv) (creq : Nat) (sl : List Nat) : AuthResult :=
  if env.code = "" then ⟨false, creq, 0, sl, 0, false, none⟩
  else
    match env.signIn with
    | .ok => ⟨true, creq, 1, sl, 0, true, none⟩
    | .passwordNeeded =>
      match env.password with
      | none => ⟨false, creq, 1, sl, 0, false, none⟩
      | some p =>
        if p = "" then ⟨false, creq, 1, sl, 0, false, none⟩
        else
          match env.passwordSignIn with
          | none => ⟨true, creq, 2, sl, 0, true, none⟩
          | some _ => ⟨false, creq, 2, sl, 0, false, none⟩
    | .codeInvalid => ⟨false, creq, 1, sl, 0, false, none⟩
    | .codeExpired => ⟨false, creq, 1, sl, 0, false, none⟩
    | .flood w => ⟨false, creq, 1, sl ++ [w], 0, false, none⟩
    | .raised _ => ⟨false, creq, 1, sl, 0, false, none⟩

/-- Shallow embedding of AsyncManager.start_client (async_manager.py
91-199).  A condition raised by the retry send_code_request (line 130,
inside the FloodWaitError handler) is not caught by the sibling handlers
and reaches the outer handlers: FloodWaitError sleeps once more and
returns False, anything else returns False via the generic handler.
No branch of the source ever calls disconnect. -/
def start_client (env : AuthEnv) : AuthResult :=
  match env.connect with
  | .raised _ => ⟨false, 0, 0, [], 0, false, none⟩
  | .ok =>
    if env.authorized then ⟨true, 0, 0, [], 0, false, none⟩
    else
      match env.send1 with
      | .ok => afterCodeRequest env 1 []
      | .invalidPhone => ⟨false, 1, 0, [], 0, false, none⟩
      | .raised _ => ⟨false, 1, 0, [], 0, false, none⟩
      | .flood w =>
        match env.send2 with
        | .ok => afterCodeRequest env 2 [w]
        | .invalidPhone => ⟨false, 2, 0, [w], 0, false, none⟩
        | .raised _ => ⟨false, 2, 0, [w], 0, false, none⟩
        | .flood w2 => ⟨false, 2, 0, [w, w2], 0, false, none⟩

theorem afterCodeRequest_disconnects (env : AuthEnv) (creq : Nat) (sl : List Nat) :
    (afterCodeRequest env creq sl).disconnects = 0 := by
  unfold afterCodeRequest
  split
  · rfl
  · split
    · rfl
    · split
      · rfl
      · split
        · rfl
        · split <;> rfl
    · rfl
    · rfl
    · rfl
    · rfl

theorem afterCodeRequest_raisedOut (env : AuthEnv) (creq : Nat) (sl : List Nat) :
    (afterCodeRequest env creq sl).raisedOut = none := by
  unfold afterCodeRequest
  split
  · rfl
  · split
    · rfl
    · split
      · rfl
      · split
        · rfl
        · split <;> rfl
    · rfl
    · rfl
    · rfl
    · rfl

/-- One row of the parsed_users table (parser.py _save_parsed_user); the
parsed_at timestamp is modelled as an abstract Nat token. -/
structure ParsedUserRow where
  user_id : Nat
  chat_id : Nat
  username : Option String
  first_name : Option String
  last_name : Option String
  phone : Option String
  parsed_at : Nat
deriving DecidableEq

/-- The per-observation fields written for a scraped user. -/
structure Observation where
  username : Option String
  first_name : Option String
  last_name : Option String
  phone : Option String
deriving DecidableEq

/-- The WHERE user_id = ? AND chat_id = ? predicate. -/
def rowMatches (uid cid : Nat) (r : ParsedUserRow) : Bool :=
  r.user_id == uid && r.chat_id == cid

/-- The UPDATE statement of _save_parsed_user applied to one row. -/
def updRow (o : Observation) (t : Nat) (r : ParsedUserRow) : ParsedUserRow :=
  ⟨r.user_id, r.chat_id, o.username, o.first_name, o.last_name, o.phone, t⟩

/-- The INSERT statement of _save_parsed_user. -/
def newRow (uid cid : Nat) (o : Observation) (t : Nat) : ParsedUserRow :=
  ⟨uid, cid, o.username, o.first_name, o.last_name, o.phone, t⟩

/-- Shallow embedding of Parser._save_parsed_user (parser.py 288-340):
SELECT ... WHERE user_id AND chat_id LIMIT 1 as an existence check, then
either UPDATE every matching row or INSERT a fresh row. -/
def save_parsed_user (db : List ParsedUserRow) (uid cid : Nat) (o : Observation) (t : Nat) :
    List ParsedUserRow :=
  if (db.filter (rowMatches uid cid)).isEmpty then db ++ [newRow uid cid o t]
  else db.map (fun r => if rowMatches uid cid r then updRow o t r else r)

/-- A sequence of scrape observations of the same (user, chat) key,
persisted in order. -/
def runScrapes (db : List ParsedUserRow) (uid cid : Nat) (obs : List (Observation × Nat)) :
    List ParsedUserRow :=
  obs.foldl (fun d ot => save_parsed_user d uid cid ot.1 ot.2) db

theorem rowMatches_updRow (uid cid : Nat) (o : Observation) (t : Nat) (r : ParsedUserRow) :
    rowMatches uid cid (updRow o t r) = rowMatches uid cid r := rfl

theorem filter_map_updRow (uid cid : Nat) (o : Observation) (t : Nat) :
    ∀ db : List ParsedUserRow,
      (db.map (fun r => if rowMatches uid cid r then updRow o t r else r)).filter
          (rowMatches uid cid) =
        (db.filter (rowMatches uid cid)).map (updRow o t) := by
  intro db
  induction db with
  | nil => simp
  | cons r rest ih =>
    by_cases h : rowMatches uid cid r
    · simp [List.filter_cons, List.map_cons, h, rowMatches_updRow, ih]
    · simp [List.filter_cons, List.map_cons, h, rowMatches_updRow, ih]

theorem rowMatches_newRow (uid cid : Nat) (o : Observation) (t : Nat) :
    rowMatches uid cid (newRow uid cid o t) = true := by
  simp [rowMatches, newRow]

theorem save_filter (db : List ParsedUserRow) (uid cid : Nat) (o : Observation) (t : Nat) :
    (save_parsed_user db uid cid o t).filter (rowMatches uid cid) =
      if (db.filter (rowMatches uid cid)).isEmpty then [newRow uid cid o t]
      else (db.filter (rowMatches uid cid)).map (updRow o t) := by
  by_cases h : (db.filter (rowMatches uid cid)).isEmpty
  · have hnil : db.filter (rowMatches uid cid) = [] := by
      simpa [List.isEmpty_iff] using h
    simp [save_parsed_user, h, List.filter_append, hnil, List.filter_cons, rowMatches_newRow]
  · simp [save_parsed_user, h, filter_map_updRow]

/-- The last observation of a sequence, seeded with a default. -/
def lastObs (d : Observation × Nat) : List (Observation × Nat) → Observation × Nat
  | [] => d
  | p :: rest => lastObs p rest

theorem runScrapes_inv (uid cid : Nat) :
    ∀ (obs : List (Observation × Nat)) (db : List ParsedUserRow) (o : Observation) (t : Nat),
      db.filter (rowMatches uid cid) = [newRow uid cid o t] →
      (runScrapes db uid cid obs).filter (rowMatches uid cid) =
        [newRow uid cid (lastObs (o, t) obs).1 (lastObs (o, t) obs).2] := by
  intro obs
  induction obs with
  | nil => intro db o t h; simpa [runScrapes, lastObs] using h
  | cons p rest ih =>
    intro db o t h
    have hne : ¬ (db.filter (rowMatches uid cid)).isEmpty = true := by
      rw [h]; simp
    have hstep : (save_parsed_user db uid cid p.1 p.2).filter (rowMatches uid cid) =
        [newRow uid cid p.1 p.2] := by
      rw [save_filter, if_neg hne, h]
      rfl
    have hrec := ih (save_parsed_user db uid cid p.1 p.2) p.1 p.2 hstep
    simpa [runScrapes, List.foldl_cons, lastObs] using hrec

/-- A member status object as inspected by the only_active filter of
parser.py: the class name of participant.status and its was_online
attribute.  The outer Option is attribute presence (hasattr); the inner
Option is the Python value, None or a datetime; a present datetime is
represented by its age in days, (now - was_online).days. -/
structure StatusObj where
  className : String
  wasOnline : Option (Option Int)
deriving DecidableEq

/-- Python substring containment (needle in hay). -/
def containsSub (hay needle : String) : Bool := (hay.splitOn needle).length != 1

/-- The only_active continue-condition of parser.py lines 145-158: true
exactly when the member is dropped.  status none models a participant
without a status attribute. -/
def excludedByOnlyActive (status : Option StatusObj) : Bool :=
  match status with
  | none => false
  | some s =>
    if containsSub s.className "UserStatusLongTimeAgo" ||
        containsSub s.className "UserStatusOffline" then
      match s.wasOnline with
      | some (some d) => decide (7 < d)
      | _ => false
    else false

/-- The user_info fields consulted by the filters of parser.py 135-142;
username none models a falsy username (absent or empty). -/
structure UserInfo where
  username : Option String
  is_bot : Bool
  is_premium : Bool
deriving DecidableEq

/-- The filters dictionary of Parser.parse_chat_participants. -/
structure Filters where
  only_usernames : Bool
  only_active : Bool
  exclude_bots : Bool
  exclude_premium : Bool
deriving DecidableEq

/-- The per-participant accept decision of parser.py lines 127-158:
info none models get_user_info returning None; the filters are applied
in source order, then the activity check. -/
def participantAccepted (f : Filters) (info : Option UserInfo)
    (status : Option StatusObj) : Bool :=
  match info with
  | none => false
  | some i =>
    if f.only_usernames && i.username.isNone then false
    else if f.exclude_bots && i.is_bot then false
    else if f.exclude_premium && i.is_premium then false
    else if f.only_active && excludedByOnlyActive status then false
    else true

/-- Setup phase of Inviter.invite_users (inviter.py lines 77-111):
each early-return path, a fault raised during setup, or readiness with
the resolved account id and chat id. -/
inductive SetupOutcome where
  | accountMissing : SetupOutcome
  | clientNone : SetupOutcome
  | notAuthorized : SetupOutcome
  | chatUnresolved : SetupOutcome
  | raisedSetup : String → SetupOutcome
  | ready : Nat → Nat → SetupOutcome
deriving DecidableEq

/-- Full Inviter.invite_users including setup and the outer except arm
(inviter.py 187-189): every early-return path and every raised setup
fault yields the reset statistics with no rows.  Except.error would
model a fault propagating to the caller; the source catches every
exception, so no branch produces it. -/
def invite_users_full (setup : SetupOutcome) (ts : List TargetBehavior) :
    Except String (InviteStats × List InviteRecordRow) :=
  match setup with
  | .accountMissing => .ok (⟨0, 0, 0⟩, [])
  | .clientNone => .ok (⟨0, 0, 0⟩, [])
  | .notAuthorized => .ok (⟨0, 0, 0⟩, [])
  | .chatUnresolved => .ok (⟨0, 0, 0⟩, [])
  | .raisedSetup _ => .ok (⟨0, 0, 0⟩, [])
  | .ready a c => .ok (invite_users a c ts)

/-- Claim C1 as stated is false on the code: a target whose identifier
fails resolution gets no persisted row at all — inviter.py 118-121
increments the skipped counter and continues without touching the
invites table, so a one-element target list yields zero rows and no row
ever carries status skipped: unresolved. -/
theorem C1_counterexample :
    (invite_users 1 2 [TargetBehavior.unresolved]).2.length = 0 ∧
    (invite_users 1 2 [TargetBehavior.unresolved]).1 = ⟨0, 0, 1⟩ ∧
    ([TargetBehavior.unresolved] : List TargetBehavior).length = 1 := by
  decide

/-- Claim C1 (amended): for every invite run, the persisted rows are
exactly one row per target that passed resolution (unresolved targets
leave no row), in input order, and the statistics counters always sum
to the number of supplied targets. -/
theorem C1_invite_rows_amended (a c : Nat) (ts : List TargetBehavior) :
    (invite_users a c ts).2 = ts.filterMap (rowFor a c) ∧
    statSum (invite_users a c ts).1 = ts.length := by
  have h := invite_fold_spec a c ts (⟨0, 0, 0⟩, [])
  constructor
  · simpa [invite_users] using h.1
  · have h2 := h.2
    simp only [statSum] at h2 ⊢
    simpa [invite_users] using h2

/-- Claim C4 as stated is false on the code: a fault raised during setup
does not propagate — the outer except arm of inviter.py 187-189 catches
it and the call returns the zeroed statistics normally. -/
theorem C4_counterexample :
    invite_users_full (SetupOutcome.raisedSetup "database unavailable")
        [TargetBehavior.unresolved] = Except.ok (⟨0, 0, 0⟩, []) := by
  rfl

/-- Claim C4 (amended): per-item faults are caught at the item boundary,
counted as error, recorded, and the loop continues; but setup-phase
faults do not propagate either — invite_users never lets any fault reach
the caller and a setup fault yields the zeroed statistics. -/
theorem C4_fault_policy_amended (setup : SetupOutcome) (ts : List TargetBehavior)
    (a c : Nat) (uid : Option Nat) (m : String) (rest : List TargetBehavior) :
    (∃ out, invite_users_full setup ts = Except.ok out) ∧
    invite_users_full (SetupOutcome.raisedSetup m) ts = Except.ok (⟨0, 0, 0⟩, []) ∧
    (invite_users a c (TargetBehavior.raisesItem uid m :: rest)).2 =
      (⟨a, uid, c, "error: " ++ m⟩ : InviteRecordRow) :: rest.filterMap (rowFor a c) ∧
    statSum (invite_users a c (TargetBehavior.raisesItem uid m :: rest)).1 =
      1 + rest.length := by
  refine ⟨?_, rfl, ?_, ?_⟩
  · cases setup <;> exact ⟨_, rfl⟩
  · have h := (invite_fold_spec a c (TargetBehavior.raisesItem uid m :: rest) (⟨0, 0, 0⟩, [])).1
    simpa [invite_users, List.filterMap_cons, rowFor] using h
  · have h := (invite_fold_spec a c (TargetBehavior.raisesItem uid m :: rest) (⟨0, 0, 0⟩, [])).2
    simp only [invite_users, statSum, List.length_cons] at h ⊢
    omega

/-- Claim C3 as stated is false on the code: start_client contains no
disconnect call on any path, so even a successful terminal outcome (and
likewise a failed one) returns with zero disconnects. -/
theorem C3_counterexample :
    (start_client ⟨ConnectOutcome.ok, true, SendCodeOutcome.ok, SendCodeOutcome.ok, "11111",
        SignInOutcome.ok, none, none⟩).success = true ∧
    (start_client ⟨ConnectOutcome.ok, true, SendCodeOutcome.ok, SendCodeOutcome.ok, "11111",
        SignInOutcome.ok, none, none⟩).disconnects = 0 ∧
    (start_client ⟨ConnectOutcome.ok, false, SendCodeOutcome.invalidPhone, SendCodeOutcome.ok,
        "11111", SignInOutcome.ok, none, none⟩).success = false ∧
    (start_client ⟨ConnectOutcome.ok, false, SendCodeOutcome.invalidPhone, SendCodeOutcome.ok,
        "11111", SignInOutcome.ok, none, none⟩).disconnects = 0 := by
  refine ⟨rfl, rfl, rfl, rfl⟩

/-- Claim C3 (amended): the authentication entry point never disconnects
the transport on any terminal outcome; the client is left connected and
the caller (main.py, after awaiting start_client) performs the
disconnect. -/
theorem C3_transport_amended (env : AuthEnv) : (start_client env).disconnects = 0 := by
  unfold start_client
  split
  · rfl
  · split
    · rfl
    · split
      · exact afterCodeRequest_disconnects env 1 []
      · rfl
      · rfl
      · split
        · exact afterCodeRequest_disconnects env 2 _
        · rfl
        · rfl
        · rfl

/-- Claim C6: the invite outcome classification of Inviter._invite_user —
privacy-restricted, already-a-participant and chat-not-modified are
skipped with a single protocol attempt and no retry; admin-required,
invalid-peer and every other unexpected condition are error with a
single attempt; and after any such classification the run continues, so
the statistics still cover every target of the list. -/
theorem C6_outcome_classification (m n : String) (retry : CallOutcome) (a c uid : Nat)
    (rest : List TargetBehavior) :
    ((inviteUser none (CallOutcome.raised TgError.privacyRestricted) retry).result.skipped = true ∧
      (inviteUser none (CallOutcome.raised TgError.privacyRestricted) retry).result.success = false ∧
      (inviteUser none (CallOutcome.raised TgError.privacyRestricted) retry).attempts = 1) ∧
    ((inviteUser none (CallOutcome.raised TgError.alreadyParticipant) retry).result.skipped = true ∧
      (inviteUser none (CallOutcome.raised TgError.alreadyParticipant) retry).result.success = false ∧
      (inviteUser none (CallOutcome.raised TgError.alreadyParticipant) retry).attempts = 1) ∧
    ((inviteUser none (CallOutcome.raised (TgError.chatNotModified m)) retry).result.skipped = true ∧
      (inviteUser none (CallOutcome.raised (TgError.chatNotModified m)) retry).result.success = false ∧
      (inviteUser none (CallOutcome.raised (TgError.chatNotModified m)) retry).attempts = 1) ∧
    ((inviteUser none (CallOutcome.raised (TgError.adminRequired m)) retry).result.skipped = false ∧
      (inviteUser none (CallOutcome.raised (TgError.adminRequired m)) retry).result.success = false ∧
      statusOf (inviteUser none (CallOutcome.raised (TgError.adminRequired m)) retry).result =
        "error: " ++ ("ChatAdminRequiredError - требуются права администратора: " ++ m) ∧
      (inviteUser none (CallOutcome.raised (TgError.adminRequired m)) retry).attempts = 1) ∧
    ((inviteUser none (CallOutcome.raised (TgError.peerIdInvalid m)) retry).result.skipped = false ∧
      (inviteUser none (CallOutcome.raised (TgError.peerIdInvalid m)) retry).result.success = false ∧
      statusOf (inviteUser none (CallOutcome.raised (TgError.peerIdInvalid m)) retry).result =
        "error: " ++ ("PeerIdInvalidError - неверный ID: " ++ m) ∧
      (inviteUser none (CallOutcome.raised (TgError.peerIdInvalid m)) retry).attempts = 1) ∧
    ((inviteUser none (CallOutcome.raised (TgError.otherError n m)) retry).result.skipped = false ∧
      (inviteUser none (CallOutcome.raised (TgError.otherError n m)) retry).result.success = false ∧
      (inviteUser none (CallOutcome.raised (TgError.otherError n m)) retry).attempts = 1) ∧
    (∀ e : TgError,
      statSum (invite_users a c
          (TargetBehavior.resolved uid none (CallOutcome.raised e) retry :: rest)).1 =
        1 + rest.length) := by
  refine ⟨⟨rfl, rfl, rfl⟩, ⟨rfl, rfl, rfl⟩, ⟨rfl, rfl, rfl⟩, ⟨rfl, rfl, rfl, rfl⟩,
    ⟨rfl, rfl, rfl, rfl⟩, ⟨rfl, rfl, rfl⟩, ?_⟩
  · intro e
    have h := (invite_fold_spec a c
      (TargetBehavior.resolved uid none (CallOutcome.raised e) retry :: rest) (⟨0, 0, 0⟩, [])).2
    simp only [invite_users, statSum, List.length_cons] at h ⊢
    omega

/-- Claim C7: when the client reports the session already authorized,
start_client returns success without issuing any code request or
sign-in call, and without raising. -/
theorem C7_idempotent_reentry (env : AuthEnv) (hc : env.connect = ConnectOutcome.ok)
    (ha : env.authorized = true) :
    (start_client env).success = true ∧ (start_client env).codeRequests = 0 ∧
    (start_client env).signInAttempts = 0 ∧ (start_client env).raisedOut = none := by
  simp [start_client, hc, ha]

theorem C7_idempotent_reentry_witness :
    (start_client ⟨ConnectOutcome.ok, true, SendCodeOutcome.invalidPhone, SendCodeOutcome.ok,
        "code", SignInOutcome.codeInvalid, none, none⟩).success = true ∧
    (start_client ⟨ConnectOutcome.ok, true, SendCodeOutcome.invalidPhone, SendCodeOutcome.ok,
        "code", SignInOutcome.codeInvalid, none, none⟩).codeRequests = 0 ∧
    (start_client ⟨ConnectOutcome.ok, true, SendCodeOutcome.invalidPhone, SendCodeOutcome.ok,
        "code", SignInOutcome.codeInvalid, none, none⟩).signInAttempts = 0 ∧
    (start_client ⟨ConnectOutcome.ok, true, SendCodeOutcome.invalidPhone, SendCodeOutcome.ok,
        "code", SignInOutcome.codeInvalid, none, none⟩).raisedOut = none :=
  C7_idempotent_reentry ⟨ConnectOutcome.ok, true, SendCodeOutcome.invalidPhone,
    SendCodeOutcome.ok, "code", SignInOutcome.codeInvalid, none, none⟩ rfl rfl

/-- Claim C8: operator-input errors — invalid phone, invalid or expired
code, empty code, and an absent or empty 2FA password — terminate the
authentication attempt, are reported as a false return with no fault
propagated, and trigger no automatic retry (at most one code request,
at most one code submission). -/
theorem C8_operator_input_errors (env : AuthEnv) (hc : env.connect = ConnectOutcome.ok)
    (ha : env.authorized = false) :
    (env.send1 = SendCodeOutcome.invalidPhone →
      (start_client env).success = false ∧ (start_client env).codeRequests = 1 ∧
      (start_client env).signInAttempts = 0 ∧ (start_client env).raisedOut = none) ∧
    (env.send1 = SendCodeOutcome.ok → env.code = "" →
      (start_client env).success = false ∧ (start_client env).codeRequests = 1 ∧
      (start_client env).signInAttempts = 0 ∧ (start_client env).raisedOut = none) ∧
    (env.send1 = SendCodeOutcome.ok → env.signIn = SignInOutcome.codeInvalid →
      (start_client env).success = false ∧ (start_client env).signInAttempts ≤ 1 ∧
      (start_client env).raisedOut = none) ∧
    (env.send1 = SendCodeOutcome.ok → env.signIn = SignInOutcome.codeExpired →
      (start_client env).success = false ∧ (start_client env).signInAttempts ≤ 1 ∧
      (start_client env).raisedOut = none) ∧
    (env.send1 = SendCodeOutcome.ok → env.signIn = SignInOutcome.passwordNeeded →
      env.password = none →
      (start_client env).success = false ∧ (start_client env).signInAttempts ≤ 1 ∧
      (start_client env).raisedOut = none) ∧
    (env.send1 = SendCodeOutcome.ok → env.signIn = SignInOutcome.passwordNeeded →
      env.password = some "" →
      (start_client env).success = false ∧ (start_client env).signInAttempts ≤ 1 ∧
      (start_client env).raisedOut = none) := by
  refine ⟨?_, ?_, ?_, ?_, ?_, ?_⟩
  · intro h1
    simp [start_client, hc, ha, h1]
  · intro h1 h2
    simp [start_client, afterCodeRequest, hc, ha, h1, h2]
  · intro h1 h3
    by_cases h2 : env.code = "" <;>
      simp [start_client, afterCodeRequest, hc, ha, h1, h2, h3]
  · intro h1 h3
    by_cases h2 : env.code = "" <;>
      simp [start_client, afterCodeRequest, hc, ha, h1, h2, h3]
  · intro h1 h3 h4
    by_cases h2 : env.code = "" <;>
      simp [start_client, afterCodeRequest, hc, ha, h1, h2, h3, h4]
  · intro h1 h3 h4
    by_cases h2 : env.code = "" <;>
      simp [start_client, afterCodeRequest, hc, ha, h1, h2, h3, h4]

theorem C8_operator_input_errors_witness :
    (start_client ⟨ConnectOutcome.ok, false, SendCodeOutcome.invalidPhone, SendCodeOutcome.ok,
        "77777", SignInOutcome.ok, none, none⟩).success = false ∧
    (start_client ⟨ConnectOutcome.ok, false, SendCodeOutcome.invalidPhone, SendCodeOutcome.ok,
        "77777", SignInOutcome.ok, none, none⟩).codeRequests = 1 ∧
    (start_client ⟨ConnectOutcome.ok, false, SendCodeOutcome.invalidPhone, SendCodeOutcome.ok,
        "77777", SignInOutcome.ok, none, none⟩).raisedOut = none := by
  have h := C8_operator_input_errors ⟨ConnectOutcome.ok, false, SendCodeOutcome.invalidPhone,
    SendCodeOutcome.ok, "77777", SignInOutcome.ok, none, none⟩ rfl rfl
  exact ⟨(h.1 rfl).1, (h.1 rfl).2.1, (h.1 rfl).2.2.2⟩

theorem inviteUser_attempts_le (entityErr : Option String) (first retry : CallOutcome) :
    (inviteUser entityErr first retry).attempts ≤ 2 := by
  rcases entityErr with _ | m
  · rcases first with _ | e
    · simp [inviteUser]
    · cases e with
      | floodWait w => cases retry <;> simp [inviteUser]
      | privacyRestricted => simp [inviteUser]
      | alreadyParticipant => simp [inviteUser]
      | adminRequired m => simp [inviteUser]
      | chatNotModified m => simp [inviteUser]
      | peerIdInvalid m => simp [inviteUser]
      | otherError n m => simp [inviteUser]
  · simp [inviteUser]

/-- Claim C2 as stated is false on the code for the scrape batch fetch:
two consecutive throttles of the same get_participants call lead parser.py
190-193 to sleep and retry each time, so a third protocol attempt is made
for the one page that is eventually fetched. -/
theorem C2_counterexample :
    (parse_chat_participants (fun b => b) [true] 5
        [FetchOutcome.flood 1, FetchOutcome.flood 1]).calls = 3 ∧
    (parse_chat_participants (fun b => b) [true] 5
        [FetchOutcome.flood 1, FetchOutcome.flood 1]).pages = [(5, 1)] ∧
    (parse_chat_participants (fun b => b) [true] 5
        [FetchOutcome.flood 1, FetchOutcome.flood 1]).sleeps = [1, 1] := by
  decide

/-- Claim C2 (amended): the invite add operation sleeps the mandated w
seconds and retries exactly once — at most two attempts, with any failed
retry surfaced as error — while the scrape batch fetch sleeps after
every throttle and retries without bound: n consecutive throttles cost n
sleeps and at least n + 1 protocol calls. -/
theorem C2_throttle_retry_amended (w : Nat) (retry : CallOutcome) (e : TgError)
    (entityErr : Option String) (first : CallOutcome) (ws : List Nat)
    (accept : Bool → Bool) (M : List Bool) (limit : Nat) :
    (inviteUser none (CallOutcome.raised (TgError.floodWait w)) retry).sleeps = [w] ∧
    (inviteUser none (CallOutcome.raised (TgError.floodWait w)) retry).attempts = 2 ∧
    (inviteUser none (CallOutcome.raised (TgError.floodWait w))
        (CallOutcome.raised e)).result.success = false ∧
    (inviteUser none (CallOutcome.raised (TgError.floodWait w))
        (CallOutcome.raised e)).result.skipped = false ∧
    (inviteUser entityErr first retry).attempts ≤ 2 ∧
    (0 < limit →
      (parse_chat_participants accept M limit (ws.map FetchOutcome.flood)).sleeps = ws ∧
      ws.length + 1 ≤
        (parse_chat_participants accept M limit (ws.map FetchOutcome.flood)).calls) := by
  refine ⟨?_, ?_, rfl, rfl, inviteUser_attempts_le entityErr first retry, ?_⟩
  · cases retry <;> rfl
  · cases retry <;> rfl
  · intro hl
    have hlen : (ws.map FetchOutcome.flood).length + M.length + limit + 2 =
        ws.length + (M.length + limit + 2) := by
      simp
      omega
    have happ : ws.map FetchOutcome.flood ++ ([] : List FetchOutcome) =
        ws.map FetchOutcome.flood := by simp
    have hpre := parseLoop_flood_prefix accept M limit ws (M.length + limit + 2)
      0 0 [] [] 0 [] [] hl
    rw [happ] at hpre
    unfold parse_chat_participants
    rw [hlen, hpre]
    constructor
    · simpa using parseLoop_sleeps_nil accept M limit (M.length + limit + 2) 0 0 []
        (0 + ws.length) [] ([] ++ ws)
    · have h2 : M.length + limit + 2 = (M.length + limit + 1) + 1 := rfl
      rw [h2]
      have h3 := parseLoop_calls_succ accept M limit (M.length + limit + 1) 0 0 [] []
        (0 + ws.length) [] ([] ++ ws) hl
      omega

theorem C2_throttle_retry_amended_witness :
    (parse_chat_participants (fun b => b) [true] 1
        (([3, 4] : List Nat).map FetchOutcome.flood)).sleeps = [3, 4] ∧
    ([3, 4] : List Nat).length + 1 ≤
      (parse_chat_participants (fun b => b) [true] 1
        (([3, 4] : List Nat).map FetchOutcome.flood)).calls := by
  have h := C2_throttle_retry_amended 7 CallOutcome.ok TgError.privacyRestricted none
    CallOutcome.ok [3, 4] (fun b => b) [true] 1
  exact h.2.2.2.2.2 (by decide)

/-- The pagination stop condition asserted by the specification for one
scrape run: the final fetched batch was shorter than requested (end of
membership), or the limit was reached, or the offset consumed the whole
member list. -/
def specStopCondition {α : Type} (out : ParseOut α) (mlen limit : Nat) : Bool :=
  match out.pages.getLast? with
  | none => true
  | some pg => Nat.blt pg.2 pg.1 || Nat.beq out.users.length limit || Nat.ble mlen out.finalOffset

/-- A 250-member chat: 2 accepted members, then 197 rejected by the
filters, then 51 more accepted. -/
def exampleMembers : List Bool :=
  List.replicate 2 true ++ List.replicate 197 false ++ List.replicate 51 true

set_option maxRecDepth 100000 in
/-- Claim C5 as stated is false on the code: with limit 101 against
exampleMembers the second page requests 99 items and receives exactly 99,
yet parser.py line 187 stops because 99 is less than the constant 100 —
members remain (offset 199 of 250) and only 2 of the 101 allowed users
were collected, so none of the stop conditions claimed by the
specification holds. -/
theorem C5_counterexample :
    specStopCondition (parse_chat_participants (fun b => b) exampleMembers 101 [])
        exampleMembers.length 101 = false ∧
    (parse_chat_participants (fun b => b) exampleMembers 101 []).pages =
      [(100, 100), (99, 99)] ∧
    (parse_chat_participants (fun b => b) exampleMembers 101 []).users.length = 2 ∧
    (parse_chat_participants (fun b => b) exampleMembers 101 []).finalOffset = 199 ∧
    exampleMembers.length = 250 := by
  decide

/-- Claim C5 (amended): every scrape run returns at most limit users,
and pagination stops exactly when a fetched batch has fewer than 100
items — the fixed page size, not the amount requested for that batch —
or when limit accepted users have been collected; every page except the
last therefore returned exactly 100 items.  Scenario C holds: limit 5
against a 3-member chat returns the 3 members with a single request. -/
theorem C5_scrape_pagination_amended {α : Type} (accept : α → Bool) (M : List α)
    (limit : Nat) (faults : List FetchOutcome) :
    (parse_chat_participants accept M limit faults).users.length ≤ limit ∧
    ((parse_chat_participants accept M limit faults).pages.dropLast.all
      (fun q => Nat.beq q.2 100)) = true ∧
    (parse_chat_participants (fun _ : Nat => true) [1, 2, 3] 5 []).users = [1, 2, 3] ∧
    (parse_chat_participants (fun _ : Nat => true) [1, 2, 3] 5 []).calls = 1 ∧
    (parse_chat_participants (fun _ : Nat => true) [1, 2, 3] 5 []).pages = [(5, 3)] := by
  refine ⟨?_, ?_, by decide, by decide, by decide⟩
  · exact parseLoop_users_le accept M limit _ _ _ _ _ _ _ _ (Nat.le_refl 0) (Nat.zero_le limit)
  · rw [List.all_eq_true]
    intro q hq
    have h := parseLoop_pages_full accept M limit (faults.length + M.length + limit + 2)
      0 0 [] faults 0 [] [] (by simp) q hq
    simpa using h

/-- Claim C9: persisting a scraped user is an upsert per (user id, chat
id) key — starting from a table without that key, any nonempty sequence
of observations leaves exactly one row for the key, carrying the fields
and timestamp of the latest observation. -/
theorem C9_scrape_upsert (db : List ParsedUserRow) (uid cid : Nat) (o : Observation)
    (t : Nat) (obs : List (Observation × Nat))
    (h : db.filter (rowMatches uid cid) = []) :
    (runScrapes db uid cid ((o, t) :: obs)).filter (rowMatches uid cid) =
      [newRow uid cid (lastObs (o, t) obs).1 (lastObs (o, t) obs).2] := by
  have hstep : (save_parsed_user db uid cid o t).filter (rowMatches uid cid) =
      [newRow uid cid o t] := by
    rw [save_filter, if_pos (by rw [h]; rfl)]
  have hrec := runScrapes_inv uid cid obs (save_parsed_user db uid cid o t) o t hstep
  simpa [runScrapes, List.foldl_cons] using hrec

theorem C9_scrape_upsert_witness :
    (runScrapes [] 1 2 [(⟨some "u", none, none, none⟩, 0),
        (⟨some "v", none, none, some "p"⟩, 5)]).filter (rowMatches 1 2) =
      [newRow 1 2 ⟨some "v", none, none, some "p"⟩ 5] := by
  have h := C9_scrape_upsert [] 1 2 ⟨some "u", none, none, none⟩ 0
    [(⟨some "v", none, none, some "p"⟩, 5)] rfl
  simpa [lastObs] using h

/-- Claim C10: with only the recently-active filter enabled, a member is
rejected exactly when a status object is present, its class name
contains UserStatusLongTimeAgo or UserStatusOffline, and it exposes a
was_online datetime more than 7 days old; a member with no status
attribute, a status without a usable was_online, or any other status
variant is accepted. -/
theorem C10_only_active_filter (i : UserInfo) (status : Option StatusObj) :
    (participantAccepted ⟨false, true, false, false⟩ (some i) status =
      !(excludedByOnlyActive status)) ∧
    (excludedByOnlyActive status = true ↔
      ∃ s : StatusObj, status = some s ∧
        (containsSub s.className "UserStatusLongTimeAgo" ||
          containsSub s.className "UserStatusOffline") = true ∧
        ∃ d : Int, s.wasOnline = some (some d) ∧ 7 < d) := by
  constructor
  · cases hE : excludedByOnlyActive status <;>
      simp [participantAccepted, hE]
  · constructor
    · intro hE
      rcases status with _ | s
      · simp [excludedByOnlyActive] at hE
      · simp only [excludedByOnlyActive] at hE
        split at hE
        · next hc =>
          rcases hw : s.wasOnline with _ | w
          · rw [hw] at hE
            simp at hE
          · rcases w with _ | d
            · rw [hw] at hE
              simp at hE
            · rw [hw] at hE
              simp at hE
              exact ⟨s, rfl, hc, d, hw, hE⟩
        · simp at hE
    · rintro ⟨s, rfl, hc, d, hw, hd⟩
      simp [excludedByOnlyActive, hc, hw, hd]

end Telematrix
